import Mathlib

/-!
# Evergreen monitor: orchestration and host event log

A shallow embedding of `monitor/monitor.go` (`RunAllMonitoring`) and of the
host event log exercised by `model/event/host_event_test.go`.

`RunAllMonitoring` talks to collaborators that live in other packages
(`distro.Find`, `model.FindAllProjectRefs`, `model.FindProject`, the three
engines and the logger).  They are taken as parameters: each collaborator is
a function over an abstract world state `σ`, so that its answers may depend
on everything that happened before.  Every collaborator call made by the
function is recorded, with its arguments and its answer, in a trace.
-/

namespace Evergreen

/-! ## Data model of the monitor package -/

/-- An error value, represented by the text that the verb %v renders for it. -/
abbrev Err := String

/-- Severity levels of slogger that the orchestrator uses. -/
inductive Level where
  | ERROR
  | WARN
  | INFO
  deriving DecidableEq, Repr

/-- Modelled from the spec: the type `distro.Distro` is declared outside the
given sources; a distro is a configuration record of which only its identity
matters to the orchestrator, which passes the loaded list on untouched. -/
structure Distro where
  Id : String
  deriving DecidableEq, Repr

/-- Modelled from the spec: the type `evergreen.Settings` is declared outside
the given sources; the orchestrator only forwards the pointer it receives. -/
structure Settings where
  ConfigDir : String
  deriving DecidableEq, Repr

/-- Modelled from the spec: the type `model.ProjectRef` is declared outside
the given sources; the orchestrator reads its `Identifier` field only, the
remaining fields are kept together in `Rest`. -/
structure ProjectRef where
  Identifier : String
  Rest : String
  deriving DecidableEq, Repr

/-- Modelled from the spec: the type `model.Project` is declared outside the
given sources; the orchestrator reads its `Identifier` field only, the
remaining fields are kept together in `Rest`. -/
structure Project where
  Identifier : String
  Rest : String
  deriving DecidableEq, Repr

/-- Function values of type `taskFlaggingFunc` named in `monitor.go`,
represented by their identifiers. -/
inductive taskFlaggingFunc where
  | flagTimedOutHeartbeats
  deriving DecidableEq, Repr

/-- Function values of type `hostFlaggingFunc` named in `monitor.go`,
represented by their identifiers. -/
inductive hostFlaggingFunc where
  | flagDecommissionedHosts
  | flagIdleHosts
  | flagExcessHosts
  | flagUnprovisionedHosts
  | flagProvisioningFailedHosts
  | flagExpiredHosts
  deriving DecidableEq, Repr

/-- Function values of type `hostMonitoringFunc` named in `monitor.go`,
represented by their identifiers. -/
inductive hostMonitoringFunc where
  | monitorReachability
  deriving DecidableEq, Repr

/-- Function values of type `notificationBuilder` named in `monitor.go`,
represented by their identifiers. -/
inductive notificationBuilder where
  | spawnHostExpirationWarnings
  | slowProvisioningWarnings
  deriving DecidableEq, Repr

/-- The task monitor engine: an ordered list of flagging functions. -/
structure TaskMonitor where
  flaggingFuncs : List taskFlaggingFunc
  deriving DecidableEq, Repr

/-- The host monitor engine: flagging functions and monitoring functions. -/
structure HostMonitor where
  flaggingFuncs : List hostFlaggingFunc
  monitoringFuncs : List hostMonitoringFunc
  deriving DecidableEq, Repr

/-- The notifier engine: an ordered list of notification builders. -/
structure Notifier where
  notificationBuilders : List notificationBuilder
  deriving DecidableEq, Repr

/-- The functions the task monitor runs through to find tasks needing to be
cleaned up. -/
def defaultTaskFlaggingFuncs : List taskFlaggingFunc :=
  [taskFlaggingFunc.flagTimedOutHeartbeats]

/-- The functions the host monitor runs through to find hosts needing to be
terminated. -/
def defaultHostFlaggingFuncs : List hostFlaggingFunc :=
  [hostFlaggingFunc.flagDecommissionedHosts,
   hostFlaggingFunc.flagIdleHosts,
   hostFlaggingFunc.flagExcessHosts,
   hostFlaggingFunc.flagUnprovisionedHosts,
   hostFlaggingFunc.flagProvisioningFailedHosts,
   hostFlaggingFunc.flagExpiredHosts]

/-- The functions the host monitor runs through to do simpler checks. -/
def defaultHostMonitoringFuncs : List hostMonitoringFunc :=
  [hostMonitoringFunc.monitorReachability]

/-- The functions the notifier uses to build notifications. -/
def defaultNotificationBuilders : List notificationBuilder :=
  [notificationBuilder.spawnHostExpirationWarnings,
   notificationBuilder.slowProvisioningWarnings]

/-! ## The project map

A Go `map[string]model.Project`, kept as an association list without
duplicate keys.  Only `get`, `keys` and `size` are observable; the order of
the entries is not. -/

/-- A Go map from project identifier to project. -/
abbrev ProjectMap := List (String × Project)

namespace ProjectMap

/-- The empty map literal. -/
def empty : ProjectMap := []

/-- Assignment `m[k] = v`: an existing entry under `k` is replaced. -/
def set (m : ProjectMap) (k : String) (v : Project) : ProjectMap :=
  (k, v) :: m.filter (fun e => e.1 != k)

/-- Lookup `m[k]`. -/
def get (m : ProjectMap) (k : String) : Option Project :=
  m.lookup k

/-- The keys of the map. -/
def keys (m : ProjectMap) : List String :=
  m.map Prod.fst

/-- The builtin `len(m)`. -/
def size (m : ProjectMap) : Nat :=
  m.length

end ProjectMap

/-! ## Collaborators and the call trace -/

/-- The outcome of a load: the loaded value or an error. -/
inductive Loaded (α : Type) where
  | ok (value : α)
  | failed (err : Err)
  deriving DecidableEq, Repr

/-- The collaborators of `RunAllMonitoring`.  Each one reads and updates the
world state `σ` (database, hosts, mail queue, clock). -/
structure Collaborators (σ : Type) where
  /-- The call `distro.Find(db.Q{})`. -/
  distroFind : σ → Loaded (List Distro) × σ
  /-- The call `model.FindAllProjectRefs()`. -/
  FindAllProjectRefs : σ → Loaded (List ProjectRef) × σ
  /-- The call `model.FindProject(revision, ref)`; `none` is a nil project. -/
  FindProject : String → ProjectRef → σ → Loaded (Option Project) × σ
  /-- The method `(*TaskMonitor).CleanupTasks`. -/
  CleanupTasks : TaskMonitor → ProjectMap → σ → List Err × σ
  /-- The method `(*HostMonitor).CleanupHosts`. -/
  CleanupHosts : HostMonitor → List Distro → Option Settings → σ → List Err × σ
  /-- The method `(*HostMonitor).RunMonitoringChecks`. -/
  RunMonitoringChecks : HostMonitor → Option Settings → σ → List Err × σ
  /-- The method `(*Notifier).Notify`. -/
  Notify : Notifier → Option Settings → σ → List Err × σ

/-- One observable step of a run: a collaborator call with its arguments and
its answer, or a line handed to `evergreen.Logger.Logf`. -/
inductive Call where
  | distroFind (res : Loaded (List Distro))
  | FindAllProjectRefs (res : Loaded (List ProjectRef))
  | FindProject (revision : String) (ref : ProjectRef) (res : Loaded (Option Project))
  | Logf (level : Level) (msg : String)
  | CleanupTasks (tm : TaskMonitor) (projects : ProjectMap) (errs : List Err)
  | CleanupHosts (hm : HostMonitor) (distros : List Distro) (settings : Option Settings)
      (errs : List Err)
  | RunMonitoringChecks (hm : HostMonitor) (settings : Option Settings) (errs : List Err)
  | Notify (n : Notifier) (settings : Option Settings) (errs : List Err)
  deriving DecidableEq, Repr

/-- What a run of `RunAllMonitoring` produces: the returned error (`none` is
nil), the trace of calls in program order, and the final world state. -/
structure Run (σ : Type) where
  ret : Option Err
  trace : List Call
  final : σ

/-! ## RunAllMonitoring -/

/-- The loop `for _, err := range errs { Logger.Logf(ERROR, format, err) }`,
where `heading` is the text of the format before its final %v. -/
def logErrs (heading : String) (errs : List Err) : List Call :=
  errs.map (fun err => Call.Logf Level.ERROR (heading ++ err))

/-- The loop of `RunAllMonitoring` that turns the project refs into a map of
project id to project.  Returns the map, the calls made, and the state. -/
def resolveProjects {σ : Type} (env : Collaborators σ) :
    List ProjectRef → ProjectMap → σ → ProjectMap × List Call × σ
  | [], projects, s => (projects, [], s)
  | ref :: rest, projects, s =>
    match env.FindProject "" ref s with
    | (Loaded.failed err, s1) =>
      -- continue on error
      let r := resolveProjects env rest projects s1
      (r.1,
        Call.FindProject "" ref (Loaded.failed err) ::
        Call.Logf Level.ERROR ("error finding project " ++ ref.Identifier ++ ": " ++ err) ::
        r.2.1,
        r.2.2)
    | (Loaded.ok none, s1) =>
      let r := resolveProjects env rest projects s1
      (r.1,
        Call.FindProject "" ref (Loaded.ok none) ::
        Call.Logf Level.ERROR ("no project entry found for ref " ++ ref.Identifier) ::
        r.2.1,
        r.2.2)
    | (Loaded.ok (some project), s1) =>
      let r := resolveProjects env rest (projects.set project.Identifier project) s1
      (r.1, Call.FindProject "" ref (Loaded.ok (some project)) :: r.2.1, r.2.2)

/-- The part of `RunAllMonitoring` after both loads: resolve the projects,
then run the four stages, logging what each returns. -/
def runStages {σ : Type} (env : Collaborators σ) (settings : Option Settings)
    (distros : List Distro) (projectRefs : List ProjectRef) (s : σ) : List Call × σ :=
  -- turn the project refs into a map of the project id -> project
  let r := resolveProjects env projectRefs ProjectMap.empty s
  let projects := r.1
  -- initialize the task monitor
  let taskMonitor : TaskMonitor := { flaggingFuncs := defaultTaskFlaggingFuncs }
  -- clean up any necessary tasks
  let t := env.CleanupTasks taskMonitor projects r.2.2
  -- initialize the host monitor
  let hostMonitor : HostMonitor :=
    { flaggingFuncs := defaultHostFlaggingFuncs,
      monitoringFuncs := defaultHostMonitoringFuncs }
  -- clean up any necessary hosts
  let h := env.CleanupHosts hostMonitor distros settings t.2
  -- run monitoring checks
  let c := env.RunMonitoringChecks hostMonitor settings h.2
  -- initialize the notifier
  let notifier : Notifier := { notificationBuilders := defaultNotificationBuilders }
  -- send notifications
  let n := env.Notify notifier settings c.2
  (r.2.1
    ++ Call.CleanupTasks taskMonitor projects t.1
      :: logErrs "Error cleaning up tasks: " t.1
    ++ Call.CleanupHosts hostMonitor distros settings h.1
      :: logErrs "Error cleaning up hosts: " h.1
    ++ Call.RunMonitoringChecks hostMonitor settings c.1
      :: logErrs "Error running host monitoring checks: " c.1
    ++ Call.Notify notifier settings n.1
      :: logErrs "Error sending notifications: " n.1,
   n.2)

/-- Run all monitoring functions. -/
def RunAllMonitoring {σ : Type} (env : Collaborators σ) (settings : Option Settings)
    (s : σ) : Run σ :=
  -- load in all of the distros
  match env.distroFind s with
  | (Loaded.failed err, s1) =>
    { ret := some ("error finding distros: " ++ err),
      trace := [Call.distroFind (Loaded.failed err)],
      final := s1 }
  | (Loaded.ok distros, s1) =>
    -- fetch the project refs, which we will use to get all of the projects
    match env.FindAllProjectRefs s1 with
    | (Loaded.failed err, s2) =>
      { ret := some ("error loading in project refs: " ++ err),
        trace := [Call.distroFind (Loaded.ok distros),
                  Call.FindAllProjectRefs (Loaded.failed err)],
        final := s2 }
    | (Loaded.ok projectRefs, s2) =>
      let r := runStages env settings distros projectRefs s2
      { ret := none,
        trace := Call.distroFind (Loaded.ok distros)
          :: Call.FindAllProjectRefs (Loaded.ok projectRefs) :: r.1,
        final := r.2 }

/-! ## Reading a trace -/

/-- The four stages that `RunAllMonitoring` drives. -/
inductive Stage where
  | CleanupTasks
  | CleanupHosts
  | RunMonitoringChecks
  | Notify
  deriving DecidableEq, Repr

/-- The stage a call belongs to, when it is a stage invocation. -/
def Call.stage : Call → Option Stage
  | Call.CleanupTasks _ _ _ => some Stage.CleanupTasks
  | Call.CleanupHosts _ _ _ _ => some Stage.CleanupHosts
  | Call.RunMonitoringChecks _ _ _ => some Stage.RunMonitoringChecks
  | Call.Notify _ _ _ => some Stage.Notify
  | _ => none

/-- The stage invocations of a trace, in program order. -/
def stagesOf (tr : List Call) : List Stage :=
  tr.filterMap Call.stage

/-- The message of a call when it is an ERROR line handed to the logger. -/
def Call.errorLine : Call → Option String
  | Call.Logf Level.ERROR msg => some msg
  | _ => none

/-- The ERROR log entries of a trace, in program order. -/
def errorLog (tr : List Call) : List String :=
  tr.filterMap Call.errorLine

/-- The lines of any level handed to the logger. -/
def Call.logLine : Call → Option (Level × String)
  | Call.Logf level msg => some (level, msg)
  | _ => none

/-- All log entries of a trace, in program order. -/
def fullLog (tr : List Call) : List (Level × String) :=
  tr.filterMap Call.logLine

/-- The project resolution a call stands for: its ref and its answer. -/
def Call.resolution : Call → Option (ProjectRef × Loaded (Option Project))
  | Call.FindProject _ ref res => some (ref, res)
  | _ => none

/-- The project resolutions attempted during a trace, in program order. -/
def resolutions (tr : List Call) : List (ProjectRef × Loaded (Option Project)) :=
  tr.filterMap Call.resolution

/-- The project a resolution produced, when it succeeded with a project. -/
def resolvedOf : ProjectRef × Loaded (Option Project) → Option Project
  | (_, Loaded.ok (some p)) => some p
  | _ => none

/-- The projects that were successfully resolved during a trace, in order. -/
def resolvedProjects (tr : List Call) : List Project :=
  (resolutions tr).filterMap resolvedOf

/-- The ERROR line that the orchestrator writes for a resolution that failed
or found no project; `none` for a resolution that produced a project. -/
def unresolvedLine : ProjectRef × Loaded (Option Project) → Option String
  | (ref, Loaded.failed err) =>
    some ("error finding project " ++ ref.Identifier ++ ": " ++ err)
  | (ref, Loaded.ok none) =>
    some ("no project entry found for ref " ++ ref.Identifier)
  | (_, Loaded.ok (some _)) => none

/-- The project map a call handed to `CleanupTasks`. -/
def Call.taskProjects : Call → Option ProjectMap
  | Call.CleanupTasks _ projects _ => some projects
  | _ => none

/-- The project maps handed to `CleanupTasks` during a trace. -/
def cleanupTasksProjects (tr : List Call) : List ProjectMap :=
  tr.filterMap Call.taskProjects

/-- The last project of a list that carries the identifier `id`. -/
def lastWithIdentifier (ps : List Project) (id : String) : Option Project :=
  ps.reverse.find? (fun p => p.Identifier == id)

/-- A load that ended in an error. -/
def Loaded.isFailed {α : Type} : Loaded α → Bool
  | Loaded.failed _ => true
  | Loaded.ok _ => false

/-! ## The host event log

The package `model/event` is represented in the given sources by its test
only.  The log itself is modelled from the specification (sections 3 and
4.1) and from what `TestLoggingHostEvents` calls and expects. -/

/-- Modelled from the spec: the resource type tag of an event payload, an
enumerated tag that is currently Host and is extensible. -/
inductive ResourceKind where
  | ResourceTypeHost
  | Other (tag : String)
  deriving DecidableEq, Repr

/-- Modelled from the spec: the event type tag, one per kind of transition,
with the names the test uses; the enumeration is open ended. -/
inductive EventKind where
  | EventHostCreated
  | EventHostStatusChanged
  | EventHostDNSNameSet
  | EventHostProvisioned
  | EventHostRunningTaskSet
  | EventHostRunningTaskCleared
  | EventHostTaskPidSet
  | Other (tag : String)
  deriving DecidableEq, Repr

/-- Modelled from the spec: the payload of a host event, one record holding
all possible host event fields, with the fields the test reads. -/
structure HostEventData where
  ResourceType : ResourceKind
  OldStatus : String
  NewStatus : String
  SetupLog : String
  Hostname : String
  TaskId : String
  TaskPid : String
  deriving DecidableEq, Repr

/-- Modelled from the spec: the polymorphic payload of an event; the test
asserts by a type assertion that a host event holds a `HostEventData`. -/
inductive EventData where
  | Host (data : HostEventData)
  | Other (tag : String)
  deriving DecidableEq, Repr

/-- Modelled from the spec: an audit record, with a timestamp in clock
ticks. -/
structure Event where
  Timestamp : Nat
  ResourceId : String
  EventType : EventKind
  Data : EventData
  deriving DecidableEq, Repr

/-- Modelled from the spec: the event collection, an append only sequence
held in insertion order. -/
abbrev EventLog := List Event

/-- Modelled from the spec: a host payload with every field blank. -/
def blankHostEventData : HostEventData :=
  { ResourceType := ResourceKind.ResourceTypeHost,
    OldStatus := "", NewStatus := "", SetupLog := "",
    Hostname := "", TaskId := "", TaskPid := "" }

/-- Modelled from the spec: `record` constructs an event with the current
timestamp `now` and appends it to the collection. -/
def record (resourceId : String) (eventType : EventKind) (data : EventData)
    (now : Nat) (log : EventLog) : EventLog :=
  log ++ [{ Timestamp := now, ResourceId := resourceId,
            EventType := eventType, Data := data }]

/-- Modelled from the spec: the helper for a created host; it populates no
field. -/
def LogHostCreated (hostId : String) (now : Nat) (log : EventLog) : EventLog :=
  record hostId EventKind.EventHostCreated (EventData.Host blankHostEventData) now log

/-- Modelled from the spec: the helper for a status change; it populates the
old and the new status. -/
def LogHostStatusChanged (hostId oldStatus newStatus : String) (now : Nat)
    (log : EventLog) : EventLog :=
  record hostId EventKind.EventHostStatusChanged
    (EventData.Host { blankHostEventData with OldStatus := oldStatus, NewStatus := newStatus })
    now log

/-- Modelled from the spec: the helper for a DNS name being set; it
populates the hostname. -/
def LogHostDNSNameSet (hostId name : String) (now : Nat) (log : EventLog) : EventLog :=
  record hostId EventKind.EventHostDNSNameSet
    (EventData.Host { blankHostEventData with Hostname := name }) now log

/-- Modelled from the spec: the helper for a provisioned host; it populates
no field. -/
def LogHostProvisioned (hostId : String) (now : Nat) (log : EventLog) : EventLog :=
  record hostId EventKind.EventHostProvisioned (EventData.Host blankHostEventData) now log

/-- Modelled from the spec: the helper for a running task being set; it
populates the task id. -/
def LogHostRunningTaskSet (hostId taskId : String) (now : Nat) (log : EventLog) : EventLog :=
  record hostId EventKind.EventHostRunningTaskSet
    (EventData.Host { blankHostEventData with TaskId := taskId }) now log

/-- Modelled from the spec: the helper for a running task being cleared; it
populates the task id. -/
def LogHostRunningTaskCleared (hostId taskId : String) (now : Nat) (log : EventLog) :
    EventLog :=
  record hostId EventKind.EventHostRunningTaskCleared
    (EventData.Host { blankHostEventData with TaskId := taskId }) now log

/-- Modelled from the spec: the helper for a task pid being set; it
populates the task pid. -/
def LogHostTaskPidSet (hostId taskPid : String) (now : Nat) (log : EventLog) : EventLog :=
  record hostId EventKind.EventHostTaskPidSet
    (EventData.Host { blankHostEventData with TaskPid := taskPid }) now log

/-- Modelled from the spec: a query for the events of one resource, to be
returned ascending by timestamp. -/
structure Query where
  ResourceId : String
  deriving DecidableEq, Repr

/-- Modelled from the spec: the query behind `findInOrder` for a host. -/
def HostEventsInOrder (hostId : String) : Query :=
  { ResourceId := hostId }

/-- The order on events by timestamp. -/
def Event.before (a b : Event) : Prop :=
  a.Timestamp ≤ b.Timestamp

instance : DecidableRel Event.before :=
  fun a b => inferInstanceAs (Decidable (a.Timestamp ≤ b.Timestamp))

/-- Modelled from the spec: `Find` selects the events of the resource and
sorts them ascending by timestamp, ties keeping their insertion order. -/
def Find (q : Query) (log : EventLog) : List Event :=
  (log.filter (fun e => e.ResourceId == q.ResourceId)).insertionSort Event.before

/-- A call of one of the seven host event helpers, with its arguments other
than the host id. -/
inductive HostCall where
  | Created
  | StatusChanged (oldStatus newStatus : String)
  | DNSNameSet (name : String)
  | Provisioned
  | RunningTaskSet (taskId : String)
  | RunningTaskCleared (taskId : String)
  | TaskPidSet (taskPid : String)
  deriving DecidableEq, Repr

/-- Perform a helper call for `hostId` at clock reading `now`. -/
def HostCall.run (hostId : String) (now : Nat) : HostCall → EventLog → EventLog
  | HostCall.Created, log => LogHostCreated hostId now log
  | HostCall.StatusChanged o n, log => LogHostStatusChanged hostId o n now log
  | HostCall.DNSNameSet name, log => LogHostDNSNameSet hostId name now log
  | HostCall.Provisioned, log => LogHostProvisioned hostId now log
  | HostCall.RunningTaskSet t, log => LogHostRunningTaskSet hostId t now log
  | HostCall.RunningTaskCleared t, log => LogHostRunningTaskCleared hostId t now log
  | HostCall.TaskPidSet pid, log => LogHostTaskPidSet hostId pid now log

/-- The event type that a helper call records. -/
def HostCall.eventType : HostCall → EventKind
  | HostCall.Created => EventKind.EventHostCreated
  | HostCall.StatusChanged _ _ => EventKind.EventHostStatusChanged
  | HostCall.DNSNameSet _ => EventKind.EventHostDNSNameSet
  | HostCall.Provisioned => EventKind.EventHostProvisioned
  | HostCall.RunningTaskSet _ => EventKind.EventHostRunningTaskSet
  | HostCall.RunningTaskCleared _ => EventKind.EventHostRunningTaskCleared
  | HostCall.TaskPidSet _ => EventKind.EventHostTaskPidSet

/-- Perform a sequence of helper calls for `hostId`, each at its own clock
reading, one after the other. -/
def logAll (hostId : String) : List (HostCall × Nat) → EventLog → EventLog
  | [], log => log
  | (c, now) :: rest, log => logAll hostId rest (c.run hostId now log)

/-- One block of assertions of the test: the event at position `i` has the
given type, resource id and payload fields. -/
def checkEvent (events : List Event) (i : Nat) (eventType : EventKind) (hostId : String)
    (oldStatus newStatus setupLog hostname taskId taskPid : String) : Bool :=
  match events.get? i with
  | none => false
  | some event =>
    event.EventType == eventType && event.ResourceId == hostId &&
    match event.Data with
    | EventData.Other _ => false
    | EventData.Host eventData =>
      eventData.ResourceType == ResourceKind.ResourceTypeHost &&
      eventData.OldStatus == oldStatus && eventData.NewStatus == newStatus &&
      eventData.SetupLog == setupLog && eventData.Hostname == hostname &&
      eventData.TaskId == taskId && eventData.TaskPid == taskPid

/-- The test `TestLoggingHostEvents`: on a cleared collection, log seven
events at the clock readings `t0` to `t6`, fetch the events of the host in
order, and check every assertion.  The status constants of package `mci`
are declared outside the given sources and are parameters. -/
def TestLoggingHostEvents (HostRunning HostTerminated : String)
    (t0 t1 t2 t3 t4 t5 t6 : Nat) : Bool :=
  let hostId := "host_id"
  let hostname := "hostname"
  let taskId := "task_id"
  let taskPid := "12345"
  let log0 : EventLog := []
  let log1 := LogHostCreated hostId t0 log0
  let log2 := LogHostStatusChanged hostId HostRunning HostTerminated t1 log1
  let log3 := LogHostDNSNameSet hostId hostname t2 log2
  let log4 := LogHostProvisioned hostId t3 log3
  let log5 := LogHostRunningTaskSet hostId taskId t4 log4
  let log6 := LogHostRunningTaskCleared hostId taskId t5 log5
  let log7 := LogHostTaskPidSet hostId taskPid t6 log6
  let eventsForHost := Find (HostEventsInOrder hostId) log7
  checkEvent eventsForHost 0 EventKind.EventHostCreated hostId "" "" "" "" "" "" &&
  checkEvent eventsForHost 1 EventKind.EventHostStatusChanged hostId
    HostRunning HostTerminated "" "" "" "" &&
  checkEvent eventsForHost 2 EventKind.EventHostDNSNameSet hostId "" "" "" hostname "" "" &&
  checkEvent eventsForHost 3 EventKind.EventHostProvisioned hostId "" "" "" "" "" "" &&
  checkEvent eventsForHost 4 EventKind.EventHostRunningTaskSet hostId "" "" "" "" taskId "" &&
  checkEvent eventsForHost 5 EventKind.EventHostRunningTaskCleared hostId
    "" "" "" "" taskId "" &&
  checkEvent eventsForHost 6 EventKind.EventHostTaskPidSet hostId "" "" "" "" "" taskPid

/-- Assign a list of projects to a map, each under its own identifier, in
list order. -/
def assignAll (m : ProjectMap) (ps : List Project) : ProjectMap :=
  ps.foldl (fun acc p => acc.set p.Identifier p) m

/-- The stage invocations of a trace with their arguments and answers. -/
def stageCalls (tr : List Call) : List Call :=
  tr.filter (fun c => c.stage.isSome)

/-- A resolution that put no project into the map. -/
def isUnresolved (r : ProjectRef × Loaded (Option Project)) : Bool :=
  (resolvedOf r).isNone

/-- The world state in which the stages start. -/
def stateAfterLoads {σ : Type} (env : Collaborators σ) (s : σ) : σ :=
  (env.FindAllProjectRefs (env.distroFind s).2).2

/-- The event that a helper call records for `hostId` at clock reading
`now`, with every payload field written out. -/
def HostCall.event (hostId : String) (now : Nat) : HostCall → Event
  | HostCall.Created =>
    { Timestamp := now, ResourceId := hostId, EventType := EventKind.EventHostCreated,
      Data := EventData.Host
        { ResourceType := ResourceKind.ResourceTypeHost, OldStatus := "", NewStatus := "",
          SetupLog := "", Hostname := "", TaskId := "", TaskPid := "" } }
  | HostCall.StatusChanged o n =>
    { Timestamp := now, ResourceId := hostId,
      EventType := EventKind.EventHostStatusChanged,
      Data := EventData.Host
        { ResourceType := ResourceKind.ResourceTypeHost, OldStatus := o, NewStatus := n,
          SetupLog := "", Hostname := "", TaskId := "", TaskPid := "" } }
  | HostCall.DNSNameSet name =>
    { Timestamp := now, ResourceId := hostId, EventType := EventKind.EventHostDNSNameSet,
      Data := EventData.Host
        { ResourceType := ResourceKind.ResourceTypeHost, OldStatus := "", NewStatus := "",
          SetupLog := "", Hostname := name, TaskId := "", TaskPid := "" } }
  | HostCall.Provisioned =>
    { Timestamp := now, ResourceId := hostId, EventType := EventKind.EventHostProvisioned,
      Data := EventData.Host
        { ResourceType := ResourceKind.ResourceTypeHost, OldStatus := "", NewStatus := "",
          SetupLog := "", Hostname := "", TaskId := "", TaskPid := "" } }
  | HostCall.RunningTaskSet t =>
    { Timestamp := now, ResourceId := hostId,
      EventType := EventKind.EventHostRunningTaskSet,
      Data := EventData.Host
        { ResourceType := ResourceKind.ResourceTypeHost, OldStatus := "", NewStatus := "",
          SetupLog := "", Hostname := "", TaskId := t, TaskPid := "" } }
  | HostCall.RunningTaskCleared t =>
    { Timestamp := now, ResourceId := hostId,
      EventType := EventKind.EventHostRunningTaskCleared,
      Data := EventData.Host
        { ResourceType := ResourceKind.ResourceTypeHost, OldStatus := "", NewStatus := "",
          SetupLog := "", Hostname := "", TaskId := t, TaskPid := "" } }
  | HostCall.TaskPidSet pid =>
    { Timestamp := now, ResourceId := hostId, EventType := EventKind.EventHostTaskPidSet,
      Data := EventData.Host
        { ResourceType := ResourceKind.ResourceTypeHost, OldStatus := "", NewStatus := "",
          SetupLog := "", Hostname := "", TaskId := "", TaskPid := pid } }

/-- The events of a log that belong to `hostId` and carry the timestamp `t`,
in insertion order. -/
def tiedEvents (hostId : String) (t : Nat) (log : EventLog) : List Event :=
  log.filter (fun e => e.ResourceId == hostId && e.Timestamp == t)

/-! ## Scripted collaborators for concrete runs -/

/-- A scripted `model.FindProject`: the answer depends on the identifier of
the ref, and the world state counts the calls. -/
def scriptedFindProject (_revision : String) (ref : ProjectRef) (s : Nat) :
    Loaded (Option Project) × Nat :=
  if ref.Identifier = "alpha" then
    (Loaded.ok (some { Identifier := "alpha-project", Rest := "first" }), s + 1)
  else if ref.Identifier = "beta" then
    (Loaded.failed "connection reset", s + 1)
  else if ref.Identifier = "gamma" then
    (Loaded.ok none, s + 1)
  else if ref.Identifier = "delta" then
    (Loaded.ok (some { Identifier := "delta-project", Rest := "second" }), s + 1)
  else
    (Loaded.ok (some { Identifier := "alpha-project", Rest := "third" }), s + 1)

/-- Scripted collaborators: the two loads answer as given, and every stage
returns a fixed list of errors. -/
def scriptedEnv (distros : Loaded (List Distro)) (refs : Loaded (List ProjectRef)) :
    Collaborators Nat :=
  { distroFind := fun s => (distros, s + 1),
    FindAllProjectRefs := fun s => (refs, s + 1),
    FindProject := scriptedFindProject,
    CleanupTasks := fun _ _ s => (["task t1: reset failed"], s + 1),
    CleanupHosts := fun _ _ _ s => (["host h1: terminate failed", "host h2: timeout"], s + 1),
    RunMonitoringChecks := fun _ _ s => ([], s + 1),
    Notify := fun _ _ s => (["smtp refused"], s + 1) }

/-- Two distros for concrete runs. -/
def demoDistros : List Distro :=
  [{ Id := "ubuntu" }, { Id := "windows" }]

/-- Four refs of which the second fails to resolve and the third is
missing. -/
def demoRefs : List ProjectRef :=
  [{ Identifier := "alpha", Rest := "" }, { Identifier := "beta", Rest := "" },
   { Identifier := "gamma", Rest := "" }, { Identifier := "delta", Rest := "" }]

/-- Five refs of which the first and the last resolve to projects with the
same identifier. -/
def demoRefsShared : List ProjectRef :=
  demoRefs ++ [{ Identifier := "epsilon", Rest := "" }]

/-- Settings for concrete runs. -/
def demoSettings : Option Settings :=
  some { ConfigDir := "/etc/evergreen" }

/-- The seven calls of the test, at clock readings one to seven. -/
def demoCalls : List (HostCall × Nat) :=
  [(HostCall.Created, 1), (HostCall.StatusChanged "running" "terminated", 2),
   (HostCall.DNSNameSet "hostname", 3), (HostCall.Provisioned, 4),
   (HostCall.RunningTaskSet "task_id", 5), (HostCall.RunningTaskCleared "task_id", 6),
   (HostCall.TaskPidSet "12345", 7)]

/-! ## What the collaborators answer along a run

These functions do not run the orchestrator.  They apply the collaborators
themselves, in the order and in the states in which a run is to call them,
so that a statement about a run can be tied to the collaborators. -/

/-- The answers of `model.FindProject` when it is called with the empty
revision on each ref in list order, the first call in state `s` and every
further call in the state that the call before it left. -/
def resolutionOutcomes {σ : Type} (env : Collaborators σ) :
    List ProjectRef → σ → List (ProjectRef × Loaded (Option Project))
  | [], _ => []
  | ref :: rest, s =>
    (ref, (env.FindProject "" ref s).1)
      :: resolutionOutcomes env rest (env.FindProject "" ref s).2

/-- The world state that those calls of `model.FindProject` leave. -/
def stateAfterResolutions {σ : Type} (env : Collaborators σ) : List ProjectRef → σ → σ
  | [], s => s
  | ref :: rest, s => stateAfterResolutions env rest (env.FindProject "" ref s).2

/-- The projects among a list of resolution outcomes, in order. -/
def resolvedAmong (rs : List (ProjectRef × Loaded (Option Project))) : List Project :=
  rs.filterMap resolvedOf

/-- The task monitor that `RunAllMonitoring` initializes. -/
def taskMonitor : TaskMonitor :=
  { flaggingFuncs := defaultTaskFlaggingFuncs }

/-- The host monitor that `RunAllMonitoring` initializes. -/
def hostMonitor : HostMonitor :=
  { flaggingFuncs := defaultHostFlaggingFuncs,
    monitoringFuncs := defaultHostMonitoringFuncs }

/-- The notifier that `RunAllMonitoring` initializes. -/
def notifier : Notifier :=
  { notificationBuilders := defaultNotificationBuilders }

/-- The map that holds each resolved project of the outcomes under its own
identifier, a later project replacing an earlier one with the same
identifier. -/
def resolvedMap {σ : Type} (env : Collaborators σ) (refs : List ProjectRef) (s : σ) :
    ProjectMap :=
  assignAll ProjectMap.empty (resolvedAmong (resolutionOutcomes env refs s))

/-- A scripted `model.FindProject` in which the ref alpha resolves to a
project whose identifier is beta, and every other ref fails to resolve. -/
def crossedFindProject (_revision : String) (ref : ProjectRef) (s : Nat) :
    Loaded (Option Project) × Nat :=
  if ref.Identifier = "alpha" then
    (Loaded.ok (some { Identifier := "beta", Rest := "resolved from alpha" }), s + 1)
  else
    (Loaded.failed "connection reset", s + 1)

/-- The refs alpha and beta. -/
def crossedRefs : List ProjectRef :=
  [{ Identifier := "alpha", Rest := "" }, { Identifier := "beta", Rest := "" }]

/-- Scripted collaborators whose loads give `demoDistros` and `crossedRefs`
and whose project resolution is `crossedFindProject`. -/
def crossedEnv : Collaborators Nat :=
  { scriptedEnv (Loaded.ok demoDistros) (Loaded.ok crossedRefs) with
    FindProject := crossedFindProject }

/-! ## Lemmas on traces -/

section TraceLemmas

theorem stagesOf_append (a b : List Call) : stagesOf (a ++ b) = stagesOf a ++ stagesOf b := by
  simp [stagesOf, List.filterMap_append]

theorem errorLog_append (a b : List Call) : errorLog (a ++ b) = errorLog a ++ errorLog b := by
  simp [errorLog, List.filterMap_append]

theorem fullLog_append (a b : List Call) : fullLog (a ++ b) = fullLog a ++ fullLog b := by
  simp [fullLog, List.filterMap_append]

theorem resolutions_append (a b : List Call) :
    resolutions (a ++ b) = resolutions a ++ resolutions b := by
  simp [resolutions, List.filterMap_append]

theorem cleanupTasksProjects_append (a b : List Call) :
    cleanupTasksProjects (a ++ b) = cleanupTasksProjects a ++ cleanupTasksProjects b := by
  simp [cleanupTasksProjects, List.filterMap_append]

theorem stagesOf_logErrs (heading : String) (errs : List Err) :
    stagesOf (logErrs heading errs) = [] := by
  induction errs with
  | nil => rfl
  | cons e es ih => simp [logErrs, stagesOf, Call.stage]

theorem errorLog_logErrs (heading : String) (errs : List Err) :
    errorLog (logErrs heading errs) = errs.map (fun err => heading ++ err) := by
  induction errs with
  | nil => rfl
  | cons e es ih => simpa [logErrs, errorLog, Call.errorLine] using ih

theorem resolutions_logErrs (heading : String) (errs : List Err) :
    resolutions (logErrs heading errs) = [] := by
  induction errs with
  | nil => rfl
  | cons e es ih => simp [logErrs, resolutions, Call.resolution]

theorem cleanupTasksProjects_logErrs (heading : String) (errs : List Err) :
    cleanupTasksProjects (logErrs heading errs) = [] := by
  induction errs with
  | nil => rfl
  | cons e es ih => simp [logErrs, cleanupTasksProjects, Call.taskProjects]

end TraceLemmas

/-! ## Lemmas on the resolution loop -/

section ResolveLemmas

variable {σ : Type} (env : Collaborators σ)

theorem stagesOf_resolveProjects (refs : List ProjectRef) (m : ProjectMap) (s : σ) :
    stagesOf (resolveProjects env refs m s).2.1 = [] := by
  induction refs generalizing m s with
  | nil => rfl
  | cons ref rest ih =>
    rcases h : env.FindProject "" ref s with ⟨res, s1⟩
    rcases res with (_ | p) | err
    · simpa [resolveProjects, h, stagesOf, Call.stage] using ih m s1
    · simpa [resolveProjects, h, stagesOf, Call.stage] using ih _ s1
    · simpa [resolveProjects, h, stagesOf, Call.stage] using ih m s1

theorem cleanupTasksProjects_resolveProjects (refs : List ProjectRef) (m : ProjectMap)
    (s : σ) : cleanupTasksProjects (resolveProjects env refs m s).2.1 = [] := by
  induction refs generalizing m s with
  | nil => rfl
  | cons ref rest ih =>
    rcases h : env.FindProject "" ref s with ⟨res, s1⟩
    rcases res with (_ | p) | err
    · simpa [resolveProjects, h, cleanupTasksProjects, Call.taskProjects] using ih m s1
    · simpa [resolveProjects, h, cleanupTasksProjects, Call.taskProjects] using ih _ s1
    · simpa [resolveProjects, h, cleanupTasksProjects, Call.taskProjects] using ih m s1

theorem resolutions_resolveProjects_refs (refs : List ProjectRef) (m : ProjectMap) (s : σ) :
    (resolutions (resolveProjects env refs m s).2.1).map Prod.fst = refs := by
  induction refs generalizing m s with
  | nil => rfl
  | cons ref rest ih =>
    rcases h : env.FindProject "" ref s with ⟨res, s1⟩
    rcases res with (_ | p) | err
    · simpa [resolveProjects, h, resolutions, Call.resolution] using ih m s1
    · simpa [resolveProjects, h, resolutions, Call.resolution] using ih _ s1
    · simpa [resolveProjects, h, resolutions, Call.resolution] using ih m s1

theorem errorLog_resolveProjects (refs : List ProjectRef) (m : ProjectMap) (s : σ) :
    errorLog (resolveProjects env refs m s).2.1
      = (resolutions (resolveProjects env refs m s).2.1).filterMap unresolvedLine := by
  induction refs generalizing m s with
  | nil => rfl
  | cons ref rest ih =>
    rcases h : env.FindProject "" ref s with ⟨res, s1⟩
    rcases res with (_ | p) | err
    · simpa [resolveProjects, h, resolutions, Call.resolution, errorLog, Call.errorLine,
        unresolvedLine] using ih m s1
    · simpa [resolveProjects, h, resolutions, Call.resolution, errorLog, Call.errorLine,
        unresolvedLine] using ih _ s1
    · simpa [resolveProjects, h, resolutions, Call.resolution, errorLog, Call.errorLine,
        unresolvedLine] using ih m s1

end ResolveLemmas

/-! ## Lemmas on the project map -/

section MapLemmas

theorem ProjectMap.lookup_filter_ne (m : ProjectMap) (k id : String) (h : id ≠ k) :
    List.lookup id (m.filter (fun e => e.1 != k)) = List.lookup id m := by
  induction m with
  | nil => rfl
  | cons e rest ih =>
    obtain ⟨k1, v1⟩ := e
    by_cases hk : k1 = k
    · subst hk
      have hne : (id == k1) = false := by simpa using h
      simp [List.filter_cons, List.lookup_cons, hne, ih]
    · have hne : (k1 != k) = true := by simpa using hk
      simp only [List.filter_cons, hne, if_true, List.lookup_cons, ih]

theorem ProjectMap.get_set (m : ProjectMap) (k id : String) (v : Project) :
    (m.set k v).get id = if id = k then some v else m.get id := by
  by_cases h : id = k
  · subst h
    simp [ProjectMap.get, ProjectMap.set]
  · have hne : (id == k) = false := by simpa using h
    simp [ProjectMap.get, ProjectMap.set, List.lookup_cons, hne, h,
      ProjectMap.lookup_filter_ne m k id h]

theorem ProjectMap.keys_set (m : ProjectMap) (k : String) (v : Project) :
    (m.set k v).keys = k :: m.keys.filter (fun x => x != k) := by
  simp only [ProjectMap.keys, ProjectMap.set, List.map_cons, List.filter_map]
  rfl

theorem ProjectMap.nodup_keys_set (m : ProjectMap) (k : String) (v : Project)
    (h : m.keys.Nodup) : (m.set k v).keys.Nodup := by
  rw [ProjectMap.keys_set]
  refine List.nodup_cons.mpr ⟨?_, h.filter _⟩
  simp [List.mem_filter]

theorem ProjectMap.size_set_le (m : ProjectMap) (k : String) (v : Project) :
    (m.set k v).size ≤ m.size + 1 := by
  simp only [ProjectMap.size, ProjectMap.set, List.length_cons]
  exact Nat.succ_le_succ (List.length_filter_le _ _)

theorem ProjectMap.mem_keys_set (m : ProjectMap) (k id : String) (v : Project) :
    id ∈ (m.set k v).keys ↔ id = k ∨ id ∈ m.keys := by
  rw [ProjectMap.keys_set]
  by_cases h : id = k
  · simp [h]
  · simp [List.mem_filter, h]

theorem lastWithIdentifier_cons (p : Project) (ps : List Project) (id : String) :
    lastWithIdentifier (p :: ps) id
      = (lastWithIdentifier ps id).or (if p.Identifier = id then some p else none) := by
  simp only [lastWithIdentifier, List.reverse_cons, List.find?_append]
  by_cases h : p.Identifier = id
  · simp [h]
  · simp [h]

theorem get_assignAll (ps : List Project) (m : ProjectMap) (id : String) :
    (assignAll m ps).get id = (lastWithIdentifier ps id).or (m.get id) := by
  induction ps generalizing m with
  | nil => simp [assignAll, lastWithIdentifier]
  | cons p rest ih =>
    have h := ih (m.set p.Identifier p)
    simp only [assignAll, List.foldl_cons] at h ⊢
    rw [h, lastWithIdentifier_cons, ProjectMap.get_set]
    cases lastWithIdentifier rest id with
    | some q => simp
    | none =>
      by_cases hid : p.Identifier = id
      · simp [hid]
      · have hid2 : ¬ id = p.Identifier := fun e => hid e.symm
        simp [hid, hid2]

theorem nodup_keys_assignAll (ps : List Project) (m : ProjectMap) (h : m.keys.Nodup) :
    (assignAll m ps).keys.Nodup := by
  induction ps generalizing m with
  | nil => simpa [assignAll] using h
  | cons p rest ih =>
    simpa [assignAll] using ih (m.set p.Identifier p) (ProjectMap.nodup_keys_set m _ _ h)

theorem size_assignAll_le (ps : List Project) (m : ProjectMap) :
    (assignAll m ps).size ≤ m.size + ps.length := by
  induction ps generalizing m with
  | nil => simp [assignAll]
  | cons p rest ih =>
    have h1 := ih (m.set p.Identifier p)
    have h2 := ProjectMap.size_set_le m p.Identifier p
    simp only [assignAll, List.foldl_cons, List.length_cons] at h1 ⊢
    omega

theorem mem_keys_assignAll (ps : List Project) (m : ProjectMap) (id : String) :
    id ∈ (assignAll m ps).keys ↔ id ∈ m.keys ∨ id ∈ ps.map (fun p => p.Identifier) := by
  induction ps generalizing m with
  | nil => simp [assignAll]
  | cons p rest ih =>
    have h := ih (m.set p.Identifier p)
    simp only [assignAll, List.foldl_cons] at h ⊢
    rw [h, ProjectMap.mem_keys_set]
    simp only [List.map_cons, List.mem_cons]
    tauto

theorem lastWithIdentifier_of_nodup_aux (ps : List Project) (id : String) (r : Project)
    (h : lastWithIdentifier ps id = some r) : r ∈ ps ∧ r.Identifier = id := by
  unfold lastWithIdentifier at h
  refine ⟨List.mem_reverse.mp (List.mem_of_find?_eq_some h), ?_⟩
  simpa using List.find?_some h

theorem lastWithIdentifier_of_nodup (ps : List Project)
    (hnd : (ps.map (fun p => p.Identifier)).Nodup) (id : String) (p : Project) :
    lastWithIdentifier ps id = some p ↔ p ∈ ps ∧ p.Identifier = id := by
  induction ps with
  | nil => simp [lastWithIdentifier]
  | cons q rest ih =>
    rw [List.map_cons, List.nodup_cons] at hnd
    have ih2 := ih hnd.2
    rw [lastWithIdentifier_cons, Option.or_eq_some, ih2]
    constructor
    · rintro (⟨hm, hid⟩ | ⟨_, hq⟩)
      · exact ⟨List.mem_cons_of_mem _ hm, hid⟩
      · by_cases hqid : q.Identifier = id
        · simp only [hqid, if_true, Option.some.injEq] at hq
          subst hq
          exact ⟨List.mem_cons_self _ _, hqid⟩
        · simp [hqid] at hq
    · rintro ⟨hm, hid⟩
      rcases List.mem_cons.mp hm with rfl | hm2
      · right
        refine ⟨?_, by simp [hid]⟩
        cases hl : lastWithIdentifier rest id with
        | none => rfl
        | some r =>
          exfalso
          have hr := (lastWithIdentifier_of_nodup_aux rest id r hl)
          exact hnd.1 (by
            rw [hid, ← hr.2]
            exact List.mem_map.mpr ⟨r, hr.1, rfl⟩)
      · exact Or.inl ⟨hm2, hid⟩

end MapLemmas

/-! ## Lemmas on a run whose loads succeed -/

section RunLemmas

variable {σ : Type} (env : Collaborators σ)

theorem resolveProjects_map (refs : List ProjectRef) (m : ProjectMap) (s : σ) :
    (resolveProjects env refs m s).1
      = assignAll m (resolvedProjects (resolveProjects env refs m s).2.1) := by
  induction refs generalizing m s with
  | nil => rfl
  | cons ref rest ih =>
    rcases h : env.FindProject "" ref s with ⟨res, s1⟩
    rcases res with (_ | p) | err
    · simpa [resolveProjects, h, resolvedProjects, resolutions, Call.resolution,
        resolvedOf] using ih m s1
    · simpa [resolveProjects, h, resolvedProjects, resolutions, Call.resolution,
        resolvedOf, assignAll] using ih (m.set p.Identifier p) s1
    · simpa [resolveProjects, h, resolvedProjects, resolutions, Call.resolution,
        resolvedOf] using ih m s1

theorem length_resolutions_resolveProjects (refs : List ProjectRef) (m : ProjectMap)
    (s : σ) : (resolutions (resolveProjects env refs m s).2.1).length = refs.length := by
  have h := congrArg List.length (resolutions_resolveProjects_refs env refs m s)
  simpa using h

theorem length_resolvedProjects_le (tr : List Call) :
    (resolvedProjects tr).length ≤ (resolutions tr).length := by
  unfold resolvedProjects
  exact List.length_filterMap_le _ _

theorem RunAllMonitoring_of_loaded (settings : Option Settings) (s : σ)
    (distros : List Distro) (refs : List ProjectRef)
    (h1 : (env.distroFind s).1 = Loaded.ok distros)
    (h2 : (env.FindAllProjectRefs (env.distroFind s).2).1 = Loaded.ok refs) :
    (RunAllMonitoring env settings s).ret = none ∧
    (RunAllMonitoring env settings s).trace
      = Call.distroFind (Loaded.ok distros) :: Call.FindAllProjectRefs (Loaded.ok refs)
        :: (runStages env settings distros refs (stateAfterLoads env s)).1 := by
  rcases hd : env.distroFind s with ⟨rd, s1⟩
  rw [hd] at h1 h2
  simp only at h1 h2
  subst h1
  rcases hr : env.FindAllProjectRefs s1 with ⟨rr, s2⟩
  rw [hr] at h2
  simp only at h2
  subst h2
  simp [RunAllMonitoring, hd, hr, stateAfterLoads]

end RunLemmas

theorem stageCalls_append (a b : List Call) :
    stageCalls (a ++ b) = stageCalls a ++ stageCalls b := by
  simp [stageCalls]

theorem stageCalls_logErrs (heading : String) (errs : List Err) :
    stageCalls (logErrs heading errs) = [] := by
  induction errs with
  | nil => rfl
  | cons e es ih => simp [logErrs, stageCalls, Call.stage]

theorem stageCalls_resolveProjects {σ : Type} (env : Collaborators σ)
    (refs : List ProjectRef) (m : ProjectMap) (s : σ) :
    stageCalls (resolveProjects env refs m s).2.1 = [] := by
  induction refs generalizing m s with
  | nil => rfl
  | cons ref rest ih =>
    rcases h : env.FindProject "" ref s with ⟨res, s1⟩
    rcases res with (_ | p) | err
    · simpa [resolveProjects, h, stageCalls, Call.stage] using ih m s1
    · simpa [resolveProjects, h, stageCalls, Call.stage] using ih _ s1
    · simpa [resolveProjects, h, stageCalls, Call.stage] using ih m s1

theorem length_filterMap_unresolvedLine (rs : List (ProjectRef × Loaded (Option Project))) :
    (rs.filterMap unresolvedLine).length = rs.countP isUnresolved := by
  induction rs with
  | nil => rfl
  | cons r rest ih =>
    obtain ⟨ref, res⟩ := r
    rcases res with (_ | p) | err <;>
      simp [unresolvedLine, isUnresolved, resolvedOf, List.countP_cons, ih]

theorem fullLog_logErrs (heading : String) (errs : List Err) :
    fullLog (logErrs heading errs)
      = (errs.map (fun err => heading ++ err)).map (fun msg => (Level.ERROR, msg)) := by
  induction errs with
  | nil => rfl
  | cons e es ih => simpa [logErrs, fullLog, Call.logLine] using ih

theorem fullLog_resolveProjects {σ : Type} (env : Collaborators σ)
    (refs : List ProjectRef) (m : ProjectMap) (s : σ) :
    fullLog (resolveProjects env refs m s).2.1
      = (errorLog (resolveProjects env refs m s).2.1).map (fun msg => (Level.ERROR, msg)) := by
  induction refs generalizing m s with
  | nil => rfl
  | cons ref rest ih =>
    rcases h : env.FindProject "" ref s with ⟨res, s1⟩
    rcases res with (_ | p) | err
    · simpa [resolveProjects, h, fullLog, Call.logLine, errorLog, Call.errorLine]
        using ih m s1
    · simpa [resolveProjects, h, fullLog, Call.logLine, errorLog, Call.errorLine]
        using ih _ s1
    · simpa [resolveProjects, h, fullLog, Call.logLine, errorLog, Call.errorLine]
        using ih m s1

theorem stagesOf_cons (c : Call) (l : List Call) :
    stagesOf (c :: l) = c.stage.toList ++ stagesOf l := by
  cases h : c.stage <;> simp [stagesOf, List.filterMap_cons, h]

theorem stageCalls_cons (c : Call) (l : List Call) :
    stageCalls (c :: l) = (if c.stage.isSome then [c] else []) ++ stageCalls l := by
  cases h : c.stage <;> simp [stageCalls, List.filter_cons, h]

theorem errorLog_cons (c : Call) (l : List Call) :
    errorLog (c :: l) = c.errorLine.toList ++ errorLog l := by
  cases h : c.errorLine <;> simp [errorLog, List.filterMap_cons, h]

theorem fullLog_cons (c : Call) (l : List Call) :
    fullLog (c :: l) = c.logLine.toList ++ fullLog l := by
  cases h : c.logLine <;> simp [fullLog, List.filterMap_cons, h]

theorem resolutions_cons (c : Call) (l : List Call) :
    resolutions (c :: l) = c.resolution.toList ++ resolutions l := by
  cases h : c.resolution <;> simp [resolutions, List.filterMap_cons, h]

theorem cleanupTasksProjects_cons (c : Call) (l : List Call) :
    cleanupTasksProjects (c :: l) = c.taskProjects.toList ++ cleanupTasksProjects l := by
  cases h : c.taskProjects <;> simp [cleanupTasksProjects, List.filterMap_cons, h]

theorem size_assignAll_of_nodup (ps : List Project)
    (hnd : (ps.map (fun p => p.Identifier)).Nodup) :
    (assignAll ProjectMap.empty ps).size = ps.length := by
  have hk : (assignAll ProjectMap.empty ps).keys.Nodup :=
    nodup_keys_assignAll ps ProjectMap.empty (by simp [ProjectMap.empty, ProjectMap.keys])
  have hperm : List.Perm (assignAll ProjectMap.empty ps).keys
      (ps.map (fun p => p.Identifier)) := by
    refine (List.perm_ext_iff_of_nodup hk hnd).mpr (fun id => ?_)
    rw [mem_keys_assignAll]
    simp [ProjectMap.empty, ProjectMap.keys]
  have hl := hperm.length_eq
  simpa [ProjectMap.keys, ProjectMap.size] using hl

theorem loaded_trace_projections {σ : Type} (env : Collaborators σ)
    (settings : Option Settings) (distros : List Distro) (refs : List ProjectRef)
    (a b : Call) (ha : a = Call.distroFind (Loaded.ok distros))
    (hb : b = Call.FindAllProjectRefs (Loaded.ok refs)) (s0 : σ) :
    resolutions (a :: b :: (runStages env settings distros refs s0).1)
      = resolutions (resolveProjects env refs ProjectMap.empty s0).2.1 ∧
    cleanupTasksProjects (a :: b :: (runStages env settings distros refs s0).1)
      = [(resolveProjects env refs ProjectMap.empty s0).1] := by
  subst ha hb
  simp only [runStages, resolutions_cons, resolutions_append, resolutions_logErrs,
    cleanupTasksProjects_cons, cleanupTasksProjects_append, cleanupTasksProjects_logErrs,
    cleanupTasksProjects_resolveProjects, Call.resolution, Call.taskProjects,
    Option.toList, List.nil_append, List.append_nil, List.singleton_append, and_self]

/-! ## Lemmas tying a run to the collaborators -/

section TieLemmas

variable {σ : Type} (env : Collaborators σ)

theorem resolutions_resolveProjects (refs : List ProjectRef) (m : ProjectMap) (s : σ) :
    resolutions (resolveProjects env refs m s).2.1 = resolutionOutcomes env refs s := by
  induction refs generalizing m s with
  | nil => rfl
  | cons ref rest ih =>
    rcases h : env.FindProject "" ref s with ⟨res, s1⟩
    rcases res with (_ | p) | err
    · simpa [resolveProjects, resolutionOutcomes, h, resolutions, Call.resolution]
        using ih m s1
    · simpa [resolveProjects, resolutionOutcomes, h, resolutions, Call.resolution]
        using ih _ s1
    · simpa [resolveProjects, resolutionOutcomes, h, resolutions, Call.resolution]
        using ih m s1

theorem state_resolveProjects (refs : List ProjectRef) (m : ProjectMap) (s : σ) :
    (resolveProjects env refs m s).2.2 = stateAfterResolutions env refs s := by
  induction refs generalizing m s with
  | nil => rfl
  | cons ref rest ih =>
    rcases h : env.FindProject "" ref s with ⟨res, s1⟩
    rcases res with (_ | p) | err
    · simpa [resolveProjects, stateAfterResolutions, h] using ih m s1
    · simpa [resolveProjects, stateAfterResolutions, h] using ih _ s1
    · simpa [resolveProjects, stateAfterResolutions, h] using ih m s1

theorem map_fst_resolutionOutcomes (refs : List ProjectRef) (s : σ) :
    (resolutionOutcomes env refs s).map Prod.fst = refs := by
  induction refs generalizing s with
  | nil => rfl
  | cons ref rest ih => simp [resolutionOutcomes, ih]

theorem resolveProjects_map_outcomes (refs : List ProjectRef) (m : ProjectMap) (s : σ) :
    (resolveProjects env refs m s).1
      = assignAll m (resolvedAmong (resolutionOutcomes env refs s)) := by
  rw [resolveProjects_map, ← resolutions_resolveProjects env refs m s]
  rfl

theorem RunAllMonitoring_final_of_loaded (settings : Option Settings) (s : σ)
    (distros : List Distro) (refs : List ProjectRef)
    (h1 : (env.distroFind s).1 = Loaded.ok distros)
    (h2 : (env.FindAllProjectRefs (env.distroFind s).2).1 = Loaded.ok refs) :
    (RunAllMonitoring env settings s).final
      = (runStages env settings distros refs (stateAfterLoads env s)).2 := by
  rcases hd : env.distroFind s with ⟨rd, s1⟩
  rw [hd] at h1 h2
  simp only at h1 h2
  subst h1
  rcases hr : env.FindAllProjectRefs s1 with ⟨rr, s2⟩
  rw [hr] at h2
  simp only at h2
  subst h2
  simp [RunAllMonitoring, hd, hr, stateAfterLoads]

end TieLemmas

/-! ## The orchestrator: claims -/

section Orchestrator

variable {σ : Type}

/-- Claim C1: `RunAllMonitoring` returns a non-nil error exactly when the
distro load fails or, the distro load having been made, the project ref load
fails; whatever the project resolutions and the four stages answer, it
returns nil otherwise. -/
theorem C1_returns_error_iff_load_fails (env : Collaborators σ)
    (settings : Option Settings) (s : σ) :
    (RunAllMonitoring env settings s).ret ≠ none ↔
      ((env.distroFind s).1.isFailed = true ∨
       (env.FindAllProjectRefs (env.distroFind s).2).1.isFailed = true) := by
  rcases hd : env.distroFind s with ⟨rd, s1⟩
  cases rd with
  | failed err => simp [RunAllMonitoring, hd, Loaded.isFailed]
  | ok distros =>
    rcases hr : env.FindAllProjectRefs s1 with ⟨rr, s2⟩
    cases rr with
    | failed err => simp [RunAllMonitoring, hd, hr, Loaded.isFailed]
    | ok refs => simp [RunAllMonitoring, hd, hr, Loaded.isFailed]

/-- Claim C2: when the distro load fails the run consists of that single
call and returns its error; when the distro load succeeds and the project
ref load fails the run consists of those two calls only.  In both cases no
project is resolved and no stage is invoked. -/
theorem C2_fatal_load_stops_run (env : Collaborators σ) (settings : Option Settings)
    (s : σ) :
    (∀ err, (env.distroFind s).1 = Loaded.failed err →
      (RunAllMonitoring env settings s).trace = [Call.distroFind (Loaded.failed err)] ∧
      (RunAllMonitoring env settings s).final = (env.distroFind s).2 ∧
      resolutions (RunAllMonitoring env settings s).trace = [] ∧
      stagesOf (RunAllMonitoring env settings s).trace = []) ∧
    (∀ distros err, (env.distroFind s).1 = Loaded.ok distros →
      (env.FindAllProjectRefs (env.distroFind s).2).1 = Loaded.failed err →
      (RunAllMonitoring env settings s).trace
        = [Call.distroFind (Loaded.ok distros),
           Call.FindAllProjectRefs (Loaded.failed err)] ∧
      (RunAllMonitoring env settings s).final
        = (env.FindAllProjectRefs (env.distroFind s).2).2 ∧
      resolutions (RunAllMonitoring env settings s).trace = [] ∧
      stagesOf (RunAllMonitoring env settings s).trace = []) := by
  rcases hd : env.distroFind s with ⟨rd, s1⟩
  constructor
  · intro err h
    simp only at h
    subst h
    simp [RunAllMonitoring, hd, resolutions, stagesOf, Call.resolution, Call.stage]
  · intro distros err h1 h2
    simp only at h1 h2
    subst h1
    rcases hr : env.FindAllProjectRefs s1 with ⟨rr, s2⟩
    rw [hr] at h2
    simp only at h2
    subst h2
    simp [RunAllMonitoring, hd, hr, resolutions, stagesOf, Call.resolution, Call.stage]

/-- Claim C4: whenever both loads succeed, the run applies the four stages
once each and in this order: CleanupTasks to the project map in the state
that the project resolutions left, CleanupHosts in the state that
CleanupTasks left, RunMonitoringChecks in the state that CleanupHosts left,
and Notify in the state that RunMonitoringChecks left.  The stage calls of
the trace are these four, with the answers that the collaborators gave, and
the run ends in the state that Notify left, whatever error lists the stages
return. -/
theorem C4_stages_once_in_order (env : Collaborators σ) (settings : Option Settings)
    (s : σ) (distros : List Distro) (refs : List ProjectRef) (t h c n : List Err × σ)
    (h1 : (env.distroFind s).1 = Loaded.ok distros)
    (h2 : (env.FindAllProjectRefs (env.distroFind s).2).1 = Loaded.ok refs)
    (ht : t = env.CleanupTasks taskMonitor (resolvedMap env refs (stateAfterLoads env s))
            (stateAfterResolutions env refs (stateAfterLoads env s)))
    (hh : h = env.CleanupHosts hostMonitor distros settings t.2)
    (hc : c = env.RunMonitoringChecks hostMonitor settings h.2)
    (hn : n = env.Notify notifier settings c.2) :
    stagesOf (RunAllMonitoring env settings s).trace
      = [Stage.CleanupTasks, Stage.CleanupHosts, Stage.RunMonitoringChecks,
         Stage.Notify] ∧
    stageCalls (RunAllMonitoring env settings s).trace
      = [Call.CleanupTasks taskMonitor (resolvedMap env refs (stateAfterLoads env s)) t.1,
         Call.CleanupHosts hostMonitor distros settings h.1,
         Call.RunMonitoringChecks hostMonitor settings c.1,
         Call.Notify notifier settings n.1] ∧
    (RunAllMonitoring env settings s).final = n.2 := by
  subst hn hc hh ht
  rw [(RunAllMonitoring_of_loaded env settings s distros refs h1 h2).2,
    RunAllMonitoring_final_of_loaded env settings s distros refs h1 h2]
  unfold resolvedMap
  rw [← resolveProjects_map_outcomes env refs ProjectMap.empty (stateAfterLoads env s),
    ← state_resolveProjects env refs ProjectMap.empty (stateAfterLoads env s)]
  refine ⟨?_, ?_, rfl⟩
  · simp only [runStages, stagesOf_cons, stagesOf_append, stagesOf_resolveProjects,
      stagesOf_logErrs, Call.stage, Option.toList, List.nil_append, List.append_nil,
      List.singleton_append]
    rfl
  · simp only [runStages, stageCalls_cons, stageCalls_append, stageCalls_resolveProjects,
      stageCalls_logErrs, Call.stage, Option.isSome, if_true, List.nil_append,
      List.append_nil, List.singleton_append, Bool.false_eq_true, if_false]
    rfl

/-- Claim C9: whenever both loads succeed, the four stage invocations are
made on a task monitor holding [flagTimedOutHeartbeats], on one and the same
host monitor holding the six host flagging functions and
[monitorReachability] for both of its passes, and on a notifier holding
[spawnHostExpirationWarnings, slowProvisioningWarnings]; the loaded distros
and the settings of the caller are what the stages receive. -/
theorem C9_default_engines (env : Collaborators σ) (settings : Option Settings)
    (s : σ) (distros : List Distro) (refs : List ProjectRef)
    (h1 : (env.distroFind s).1 = Loaded.ok distros)
    (h2 : (env.FindAllProjectRefs (env.distroFind s).2).1 = Loaded.ok refs) :
    ∃ (hostMonitor : HostMonitor) (projects : ProjectMap) (e1 e2 e3 e4 : List Err),
      hostMonitor.flaggingFuncs
        = [hostFlaggingFunc.flagDecommissionedHosts, hostFlaggingFunc.flagIdleHosts,
           hostFlaggingFunc.flagExcessHosts, hostFlaggingFunc.flagUnprovisionedHosts,
           hostFlaggingFunc.flagProvisioningFailedHosts,
           hostFlaggingFunc.flagExpiredHosts] ∧
      hostMonitor.monitoringFuncs = [hostMonitoringFunc.monitorReachability] ∧
      stageCalls (RunAllMonitoring env settings s).trace
        = [Call.CleanupTasks
             { flaggingFuncs := [taskFlaggingFunc.flagTimedOutHeartbeats] } projects e1,
           Call.CleanupHosts hostMonitor distros settings e2,
           Call.RunMonitoringChecks hostMonitor settings e3,
           Call.Notify
             { notificationBuilders :=
                 [notificationBuilder.spawnHostExpirationWarnings,
                  notificationBuilder.slowProvisioningWarnings] } settings e4] := by
  rw [(RunAllMonitoring_of_loaded env settings s distros refs h1 h2).2]
  have e : ∀ (c : Call) (l : List Call),
      stageCalls (c :: l) = stageCalls [c] ++ stageCalls l :=
    fun c l => stageCalls_append [c] l
  rw [e, e (Call.FindAllProjectRefs _)]
  simp only [runStages, stageCalls_append, stageCalls_resolveProjects]
  rw [e (Call.CleanupTasks _ _ _), e (Call.CleanupHosts _ _ _ _),
    e (Call.RunMonitoringChecks _ _ _), e (Call.Notify _ _ _)]
  simp only [stageCalls_logErrs]
  exact ⟨{ flaggingFuncs := defaultHostFlaggingFuncs,
           monitoringFuncs := defaultHostMonitoringFuncs }, _, _, _, _, _, rfl, rfl, rfl⟩

/-- Claim C5: whenever both loads succeed, the ERROR lines of the run are,
in this order, one line per project resolution that failed or found no
project (in the order of the refs), then one line per error that
CleanupTasks returned, then one per error that CleanupHosts returned, then
one per error that RunMonitoringChecks returned, then one per error that
Notify returned, each group in the order of the returned list, where the
resolutions and the four error lists are the answers of the collaborators
themselves.  No line of another level is written, and the number of lines
is the number of unresolved refs plus the lengths of the four lists. -/
theorem C5_every_error_logged_once (env : Collaborators σ) (settings : Option Settings)
    (s : σ) (distros : List Distro) (refs : List ProjectRef) (t h c n : List Err × σ)
    (h1 : (env.distroFind s).1 = Loaded.ok distros)
    (h2 : (env.FindAllProjectRefs (env.distroFind s).2).1 = Loaded.ok refs)
    (ht : t = env.CleanupTasks taskMonitor (resolvedMap env refs (stateAfterLoads env s))
            (stateAfterResolutions env refs (stateAfterLoads env s)))
    (hh : h = env.CleanupHosts hostMonitor distros settings t.2)
    (hc : c = env.RunMonitoringChecks hostMonitor settings h.2)
    (hn : n = env.Notify notifier settings c.2) :
    (resolutionOutcomes env refs (stateAfterLoads env s)).map Prod.fst = refs ∧
    errorLog (RunAllMonitoring env settings s).trace
      = (resolutionOutcomes env refs (stateAfterLoads env s)).filterMap unresolvedLine
        ++ t.1.map (fun err => "Error cleaning up tasks: " ++ err)
        ++ h.1.map (fun err => "Error cleaning up hosts: " ++ err)
        ++ c.1.map (fun err => "Error running host monitoring checks: " ++ err)
        ++ n.1.map (fun err => "Error sending notifications: " ++ err) ∧
    fullLog (RunAllMonitoring env settings s).trace
      = (errorLog (RunAllMonitoring env settings s).trace).map
          (fun msg => (Level.ERROR, msg)) ∧
    (errorLog (RunAllMonitoring env settings s).trace).length
      = (resolutionOutcomes env refs (stateAfterLoads env s)).countP isUnresolved
        + t.1.length + h.1.length + c.1.length + n.1.length := by
  subst hn hc hh ht
  rw [(RunAllMonitoring_of_loaded env settings s distros refs h1 h2).2]
  unfold resolvedMap
  rw [← resolveProjects_map_outcomes env refs ProjectMap.empty (stateAfterLoads env s),
    ← state_resolveProjects env refs ProjectMap.empty (stateAfterLoads env s)]
  refine ⟨map_fst_resolutionOutcomes env refs _, ?_⟩
  simp only [runStages, errorLog_cons, errorLog_append, errorLog_logErrs,
    errorLog_resolveProjects, resolutions_resolveProjects,
    fullLog_cons, fullLog_append, fullLog_logErrs, fullLog_resolveProjects,
    length_filterMap_unresolvedLine,
    Call.errorLine, Call.logLine, Option.toList,
    List.nil_append, List.append_nil, List.map_append, List.length_append,
    List.length_map, List.append_assoc, true_and, and_true]
  refine ⟨rfl, ?_⟩
  simp only [taskMonitor, hostMonitor, notifier]
  omega

/-- Claim C3, as amended: whenever both loads succeed and the projects that
resolve carry pairwise distinct identifiers, the run returns nil, calls
FindProject on every ref once and in list order, and hands CleanupTasks, in
the state that the resolutions left, a map whose entries are exactly the
resolved projects, each under its own Identifier: its size is the number of
resolved projects, and a ref that failed to resolve or was missing has no
entry under its identifier unless a resolved project carries that
identifier. -/
theorem C3_unresolved_refs_skipped (env : Collaborators σ) (settings : Option Settings)
    (s : σ) (distros : List Distro) (refs : List ProjectRef)
    (h1 : (env.distroFind s).1 = Loaded.ok distros)
    (h2 : (env.FindAllProjectRefs (env.distroFind s).2).1 = Loaded.ok refs)
    (hd : ((resolvedAmong (resolutionOutcomes env refs (stateAfterLoads env s))).map
            (fun p => p.Identifier)).Nodup) :
    (RunAllMonitoring env settings s).ret = none ∧
    resolutions (RunAllMonitoring env settings s).trace
      = resolutionOutcomes env refs (stateAfterLoads env s) ∧
    (resolutionOutcomes env refs (stateAfterLoads env s)).map Prod.fst = refs ∧
    ∃ m : ProjectMap,
      cleanupTasksProjects (RunAllMonitoring env settings s).trace = [m] ∧
      Call.CleanupTasks taskMonitor m
          (env.CleanupTasks taskMonitor m
            (stateAfterResolutions env refs (stateAfterLoads env s))).1
        ∈ (RunAllMonitoring env settings s).trace ∧
      (∀ id p, m.get id = some p ↔
        p ∈ resolvedAmong (resolutionOutcomes env refs (stateAfterLoads env s)) ∧
          p.Identifier = id) ∧
      m.size = (resolvedAmong (resolutionOutcomes env refs (stateAfterLoads env s))).length ∧
      (∀ r ∈ resolutionOutcomes env refs (stateAfterLoads env s), isUnresolved r = true →
        (∀ p ∈ resolvedAmong (resolutionOutcomes env refs (stateAfterLoads env s)),
          p.Identifier ≠ r.1.Identifier) →
        m.get r.1.Identifier = none) := by
  obtain ⟨hret, htr⟩ := RunAllMonitoring_of_loaded env settings s distros refs h1 h2
  rw [htr]
  obtain ⟨hres, hmap⟩ := loaded_trace_projections env settings distros refs _ _ rfl rfl
    (stateAfterLoads env s)
  rw [hres, hmap, resolutions_resolveProjects]
  have hiff : ∀ id p,
      (resolveProjects env refs ProjectMap.empty (stateAfterLoads env s)).1.get id = some p ↔
        p ∈ resolvedAmong (resolutionOutcomes env refs (stateAfterLoads env s)) ∧
          p.Identifier = id := by
    intro id p
    rw [resolveProjects_map_outcomes, get_assignAll]
    simp only [ProjectMap.get, ProjectMap.empty, List.lookup_nil, Option.or_none]
    exact lastWithIdentifier_of_nodup _ hd id p
  refine ⟨hret, rfl, map_fst_resolutionOutcomes env refs _, _, rfl, ?_, hiff, ?_, ?_⟩
  · rw [← state_resolveProjects env refs ProjectMap.empty (stateAfterLoads env s)]
    simp [runStages, taskMonitor]
  · rw [resolveProjects_map_outcomes]
    exact size_assignAll_of_nodup _ hd
  · intro r _ _ hno
    cases hg : (resolveProjects env refs ProjectMap.empty (stateAfterLoads env s)).1.get
        r.1.Identifier with
    | none => rfl
    | some p =>
      have hp := (hiff _ _).mp hg
      exact absurd hp.2 (hno p hp.1)

/-- Claim C10: whenever both loads succeed, the map handed to CleanupTasks
is keyed by the Identifier of the resolved projects: its keys are exactly
the identifiers of the projects that resolved, no key occurs twice, its size
is at most the number of refs, and under each identifier it holds the last
project resolved with that identifier. -/
theorem C10_map_keyed_by_project_identifier (env : Collaborators σ)
    (settings : Option Settings) (s : σ) (distros : List Distro) (refs : List ProjectRef)
    (h1 : (env.distroFind s).1 = Loaded.ok distros)
    (h2 : (env.FindAllProjectRefs (env.distroFind s).2).1 = Loaded.ok refs) :
    (resolutions (RunAllMonitoring env settings s).trace).map Prod.fst = refs ∧
    ∃ m : ProjectMap,
      cleanupTasksProjects (RunAllMonitoring env settings s).trace = [m] ∧
      (∀ id, id ∈ m.keys ↔
        id ∈ (resolvedProjects (RunAllMonitoring env settings s).trace).map
          (fun p => p.Identifier)) ∧
      m.keys.Nodup ∧
      m.size ≤ refs.length ∧
      (∀ id, m.get id
        = lastWithIdentifier (resolvedProjects (RunAllMonitoring env settings s).trace) id) := by
  obtain ⟨_, htr⟩ := RunAllMonitoring_of_loaded env settings s distros refs h1 h2
  rw [htr]
  obtain ⟨hres, hmap⟩ := loaded_trace_projections env settings distros refs _ _ rfl rfl
    (stateAfterLoads env s)
  have hrp : resolvedProjects (Call.distroFind (Loaded.ok distros)
        :: Call.FindAllProjectRefs (Loaded.ok refs)
        :: (runStages env settings distros refs (stateAfterLoads env s)).1)
      = resolvedProjects
          (resolveProjects env refs ProjectMap.empty (stateAfterLoads env s)).2.1 := by
    simp only [resolvedProjects, hres]
  rw [hrp, hres, hmap]
  refine ⟨resolutions_resolveProjects_refs env refs _ _, _, rfl, ?_, ?_, ?_, ?_⟩
  · intro id
    rw [resolveProjects_map, mem_keys_assignAll]
    simp [ProjectMap.empty, ProjectMap.keys]
  · rw [resolveProjects_map]
    exact nodup_keys_assignAll _ _ (by simp [ProjectMap.empty, ProjectMap.keys])
  · rw [resolveProjects_map]
    have hle := size_assignAll_le
      (resolvedProjects
        (resolveProjects env refs ProjectMap.empty (stateAfterLoads env s)).2.1)
      ProjectMap.empty
    have hl := length_resolvedProjects_le
      (resolveProjects env refs ProjectMap.empty (stateAfterLoads env s)).2.1
    rw [length_resolutions_resolveProjects] at hl
    have h0 : ProjectMap.size ProjectMap.empty = 0 := rfl
    rw [h0, Nat.zero_add] at hle
    exact Nat.le_trans hle hl
  · intro id
    rw [resolveProjects_map, get_assignAll]
    simp [ProjectMap.get, ProjectMap.empty, Option.or_none]

end Orchestrator

/-! ## The host event log: lemmas -/

section EventLemmas

theorem HostCall.run_eq (hostId : String) (now : Nat) (c : HostCall) (log : EventLog) :
    c.run hostId now log = log ++ [c.event hostId now] := by
  cases c <;> rfl

theorem HostCall.event_resourceId (hostId : String) (now : Nat) (c : HostCall) :
    (c.event hostId now).ResourceId = hostId := by
  cases c <;> rfl

theorem HostCall.event_timestamp (hostId : String) (now : Nat) (c : HostCall) :
    (c.event hostId now).Timestamp = now := by
  cases c <;> rfl

theorem HostCall.event_eventType (hostId : String) (now : Nat) (c : HostCall) :
    (c.event hostId now).EventType = c.eventType := by
  cases c <;> rfl

theorem logAll_eq (hostId : String) (calls : List (HostCall × Nat)) (log : EventLog) :
    logAll hostId calls log = log ++ calls.map (fun c => c.1.event hostId c.2) := by
  induction calls generalizing log with
  | nil => simp [logAll]
  | cons c rest ih =>
    obtain ⟨call, now⟩ := c
    simp [logAll, ih, HostCall.run_eq]

theorem filter_orderedInsert_timestamp (t : Nat) (a : Event) (l : List Event) :
    (l.orderedInsert Event.before a).filter (fun e => e.Timestamp == t)
      = (a :: l).filter (fun e => e.Timestamp == t) := by
  induction l with
  | nil => rfl
  | cons b rest ih =>
    by_cases hab : Event.before a b
    · simp [List.orderedInsert, hab]
    · have hlt : b.Timestamp < a.Timestamp := Nat.lt_of_not_le hab
      simp only [List.orderedInsert, hab, if_false, List.filter_cons, ih]
      by_cases ha : a.Timestamp = t
      · have hb : ¬ b.Timestamp = t := by omega
        simp [ha, hb]
      · simp [ha]

theorem filter_insertionSort_timestamp (t : Nat) (l : List Event) :
    (l.insertionSort Event.before).filter (fun e => e.Timestamp == t)
      = l.filter (fun e => e.Timestamp == t) := by
  induction l with
  | nil => rfl
  | cons a rest ih =>
    rw [List.insertionSort, filter_orderedInsert_timestamp, List.filter_cons, ih,
      List.filter_cons]

theorem Find_perm (hostId : String) (log : EventLog) :
    List.Perm (Find (HostEventsInOrder hostId) log)
      (log.filter (fun e => e.ResourceId == hostId)) :=
  List.perm_insertionSort _ _

theorem Find_sorted (hostId : String) (log : EventLog) :
    (Find (HostEventsInOrder hostId) log).Pairwise
      (fun a b => a.Timestamp ≤ b.Timestamp) := by
  haveI : IsTotal Event Event.before := ⟨fun a b => Nat.le_total a.Timestamp b.Timestamp⟩
  haveI : IsTrans Event Event.before := ⟨fun _ _ _ h1 h2 => Nat.le_trans h1 h2⟩
  exact List.sorted_insertionSort Event.before _

theorem Find_logAll (hostId : String) (calls : List (HostCall × Nat)) (log0 : EventLog)
    (h0 : ∀ e ∈ log0, e.ResourceId ≠ hostId)
    (hinc : (calls.map Prod.snd).Pairwise (fun a b => a < b)) :
    Find (HostEventsInOrder hostId) (logAll hostId calls log0)
      = calls.map (fun c => c.1.event hostId c.2) := by
  have hf0 : log0.filter (fun e => e.ResourceId == hostId) = [] := by
    rw [List.filter_eq_nil_iff]
    intro e he
    simpa using h0 e he
  have hf1 : (calls.map (fun c => c.1.event hostId c.2)).filter
      (fun e => e.ResourceId == hostId) = calls.map (fun c => c.1.event hostId c.2) := by
    rw [List.filter_eq_self]
    intro e he
    obtain ⟨c, _, rfl⟩ := List.mem_map.mp he
    simp [HostCall.event_resourceId]
  have hs : (calls.map (fun c => c.1.event hostId c.2)).Sorted Event.before := by
    rw [List.Sorted, List.pairwise_map]
    rw [List.pairwise_map] at hinc
    refine hinc.imp ?_
    intro a b hab
    simp only [Event.before, HostCall.event_timestamp]
    exact Nat.le_of_lt hab
  simp only [Find, HostEventsInOrder, logAll_eq, List.filter_append, hf0, hf1,
    List.nil_append]
  exact hs.insertionSort_eq

end EventLemmas

/-! ## The host event log: claims -/

section EventClaims

/-- Claim C6: for every host id, every log holding no event of that host,
and every sequence of the seven kinds of helper calls made for the host at
strictly increasing clock readings, fetching the events of the host in
order returns exactly the events that were appended, all of them, each with
the host id as its resource id, in the order of the calls, which is the
strictly ascending order of their timestamps. -/
theorem C6_events_found_in_call_order (hostId : String) (calls : List (HostCall × Nat))
    (log0 : EventLog) (h0 : ∀ e ∈ log0, e.ResourceId ≠ hostId)
    (hinc : (calls.map Prod.snd).Pairwise (fun a b => a < b)) :
    logAll hostId calls log0
      = log0 ++ Find (HostEventsInOrder hostId) (logAll hostId calls log0) ∧
    (Find (HostEventsInOrder hostId) (logAll hostId calls log0)).length = calls.length ∧
    (Find (HostEventsInOrder hostId) (logAll hostId calls log0)).map (fun e => e.Timestamp)
      = calls.map Prod.snd ∧
    (Find (HostEventsInOrder hostId) (logAll hostId calls log0)).map (fun e => e.EventType)
      = calls.map (fun c => c.1.eventType) ∧
    (∀ e ∈ Find (HostEventsInOrder hostId) (logAll hostId calls log0),
      e.ResourceId = hostId) ∧
    (Find (HostEventsInOrder hostId) (logAll hostId calls log0)).Pairwise
      (fun a b => a.Timestamp < b.Timestamp) := by
  rw [Find_logAll hostId calls log0 h0 hinc]
  refine ⟨logAll_eq hostId calls log0, by simp, ?_, ?_, ?_, ?_⟩
  · simp [List.map_map, Function.comp_def, HostCall.event_timestamp]
  · simp [List.map_map, Function.comp_def, HostCall.event_eventType]
  · intro e he
    obtain ⟨c, _, rfl⟩ := List.mem_map.mp he
    exact HostCall.event_resourceId hostId c.2 c.1
  · rw [List.pairwise_map]
    rw [List.pairwise_map] at hinc
    refine hinc.imp ?_
    intro a b hab
    simpa [HostCall.event_timestamp] using hab

/-- Claim C7: every host event helper appends one event that carries the
event type of the helper, the given host id as resource id, and a host
payload with resource type Host in which exactly the fields of that
transition hold the arguments and every other field is blank. -/
theorem C7_helpers_populate_only_their_fields (hostId oldStatus newStatus name taskId
    taskPid : String) (now : Nat) (log : EventLog) :
    LogHostCreated hostId now log
      = log ++ [{ Timestamp := now, ResourceId := hostId,
                  EventType := EventKind.EventHostCreated,
                  Data := EventData.Host
                    { ResourceType := ResourceKind.ResourceTypeHost, OldStatus := "",
                      NewStatus := "", SetupLog := "", Hostname := "", TaskId := "",
                      TaskPid := "" } }] ∧
    LogHostStatusChanged hostId oldStatus newStatus now log
      = log ++ [{ Timestamp := now, ResourceId := hostId,
                  EventType := EventKind.EventHostStatusChanged,
                  Data := EventData.Host
                    { ResourceType := ResourceKind.ResourceTypeHost,
                      OldStatus := oldStatus, NewStatus := newStatus, SetupLog := "",
                      Hostname := "", TaskId := "", TaskPid := "" } }] ∧
    LogHostDNSNameSet hostId name now log
      = log ++ [{ Timestamp := now, ResourceId := hostId,
                  EventType := EventKind.EventHostDNSNameSet,
                  Data := EventData.Host
                    { ResourceType := ResourceKind.ResourceTypeHost, OldStatus := "",
                      NewStatus := "", SetupLog := "", Hostname := name, TaskId := "",
                      TaskPid := "" } }] ∧
    LogHostProvisioned hostId now log
      = log ++ [{ Timestamp := now, ResourceId := hostId,
                  EventType := EventKind.EventHostProvisioned,
                  Data := EventData.Host
                    { ResourceType := ResourceKind.ResourceTypeHost, OldStatus := "",
                      NewStatus := "", SetupLog := "", Hostname := "", TaskId := "",
                      TaskPid := "" } }] ∧
    LogHostRunningTaskSet hostId taskId now log
      = log ++ [{ Timestamp := now, ResourceId := hostId,
                  EventType := EventKind.EventHostRunningTaskSet,
                  Data := EventData.Host
                    { ResourceType := ResourceKind.ResourceTypeHost, OldStatus := "",
                      NewStatus := "", SetupLog := "", Hostname := "", TaskId := taskId,
                      TaskPid := "" } }] ∧
    LogHostRunningTaskCleared hostId taskId now log
      = log ++ [{ Timestamp := now, ResourceId := hostId,
                  EventType := EventKind.EventHostRunningTaskCleared,
                  Data := EventData.Host
                    { ResourceType := ResourceKind.ResourceTypeHost, OldStatus := "",
                      NewStatus := "", SetupLog := "", Hostname := "", TaskId := taskId,
                      TaskPid := "" } }] ∧
    LogHostTaskPidSet hostId taskPid now log
      = log ++ [{ Timestamp := now, ResourceId := hostId,
                  EventType := EventKind.EventHostTaskPidSet,
                  Data := EventData.Host
                    { ResourceType := ResourceKind.ResourceTypeHost, OldStatus := "",
                      NewStatus := "", SetupLog := "", Hostname := "", TaskId := "",
                      TaskPid := taskPid } }] :=
  ⟨rfl, rfl, rfl, rfl, rfl, rfl, rfl⟩

/-- Claim C8: for every host id, every clock reading and every log, the
events of the host that carry that timestamp come back from the ordered
fetch in the order in which they were inserted, none missing and none
added. -/
theorem C8_ties_keep_insertion_order (hostId : String) (t : Nat) (log : EventLog) :
    (Find (HostEventsInOrder hostId) log).filter (fun e => e.Timestamp == t)
      = tiedEvents hostId t log := by
  simp only [Find, HostEventsInOrder, filter_insertionSort_timestamp, List.filter_filter,
    tiedEvents]
  congr 1
  funext e
  exact Bool.and_comm _ _

/-- The test `TestLoggingHostEvents` passes on the modelled log whenever the
seven clock readings strictly increase, as the sleeps between the calls
ensure. -/
theorem TestLoggingHostEvents_passes (HostRunning HostTerminated : String)
    (t0 t1 t2 t3 t4 t5 t6 : Nat)
    (h01 : t0 < t1) (h12 : t1 < t2) (h23 : t2 < t3) (h34 : t3 < t4) (h45 : t4 < t5)
    (h56 : t5 < t6) :
    TestLoggingHostEvents HostRunning HostTerminated t0 t1 t2 t3 t4 t5 t6 = true := by
  have hinc : (([(HostCall.Created, t0), (HostCall.StatusChanged HostRunning HostTerminated, t1),
      (HostCall.DNSNameSet "hostname", t2), (HostCall.Provisioned, t3),
      (HostCall.RunningTaskSet "task_id", t4), (HostCall.RunningTaskCleared "task_id", t5),
      (HostCall.TaskPidSet "12345", t6)] : List (HostCall × Nat)).map Prod.snd).Pairwise
      (fun a b => a < b) := by
    simp only [List.map_cons, List.map_nil, List.pairwise_cons, List.mem_cons,
      List.mem_singleton, List.not_mem_nil, List.Pairwise.nil, forall_eq_or_imp,
      forall_eq, false_imp_iff, implies_true, and_true]
    omega
  have h := Find_logAll "host_id" _ [] (by simp) hinc
  simp only [logAll, HostCall.run] at h
  simp only [TestLoggingHostEvents, h]
  simp [checkEvent, HostCall.event]

end EventClaims

/-! ## Concrete runs -/

section Witnesses

/-- A run whose distro load fails returns the wrapped error after that one
call. -/
theorem run_distro_load_fails :
    (RunAllMonitoring (scriptedEnv (Loaded.failed "no reachable servers")
        (Loaded.ok demoRefs)) demoSettings 0).ret
      = some "error finding distros: no reachable servers" ∧
    (RunAllMonitoring (scriptedEnv (Loaded.failed "no reachable servers")
        (Loaded.ok demoRefs)) demoSettings 0).final = 1 := by
  decide

/-- A run whose project ref load fails returns the wrapped error after the
two loads. -/
theorem run_ref_load_fails :
    (RunAllMonitoring (scriptedEnv (Loaded.ok demoDistros)
        (Loaded.failed "cursor closed")) demoSettings 0).ret
      = some "error loading in project refs: cursor closed" ∧
    (RunAllMonitoring (scriptedEnv (Loaded.ok demoDistros)
        (Loaded.failed "cursor closed")) demoSettings 0).final = 2 := by
  decide

/-- A run over five refs, two of which do not resolve and two of which
resolve to the same project identifier: the returned value, the ERROR lines
and the map handed to CleanupTasks. -/
theorem run_with_unresolved_refs :
    (RunAllMonitoring (scriptedEnv (Loaded.ok demoDistros) (Loaded.ok demoRefsShared))
      demoSettings 0).ret = none ∧
    errorLog (RunAllMonitoring (scriptedEnv (Loaded.ok demoDistros)
      (Loaded.ok demoRefsShared)) demoSettings 0).trace
      = ["error finding project beta: connection reset",
         "no project entry found for ref gamma",
         "Error cleaning up tasks: task t1: reset failed",
         "Error cleaning up hosts: host h1: terminate failed",
         "Error cleaning up hosts: host h2: timeout",
         "Error sending notifications: smtp refused"] ∧
    cleanupTasksProjects (RunAllMonitoring (scriptedEnv (Loaded.ok demoDistros)
      (Loaded.ok demoRefsShared)) demoSettings 0).trace
      = [[("alpha-project", { Identifier := "alpha-project", Rest := "third" }),
          ("delta-project", { Identifier := "delta-project", Rest := "second" })]] := by
  decide

/-- The test passes at the clock readings one to seven, and fails when the
clock steps back between the first two calls. -/
theorem TestLoggingHostEvents_runs :
    TestLoggingHostEvents "running" "terminated" 1 2 3 4 5 6 7 = true ∧
    TestLoggingHostEvents "running" "terminated" 2 1 3 4 5 6 7 = false := by
  decide

/-- Witness of C2: a failing distro load and a failing project ref load. -/
theorem C2_fatal_load_stops_run_witness :
    (RunAllMonitoring (scriptedEnv (Loaded.failed "no reachable servers")
        (Loaded.ok demoRefs)) demoSettings 0).trace
      = [Call.distroFind (Loaded.failed "no reachable servers")] ∧
    (RunAllMonitoring (scriptedEnv (Loaded.ok demoDistros)
        (Loaded.failed "cursor closed")) demoSettings 0).trace
      = [Call.distroFind (Loaded.ok demoDistros),
         Call.FindAllProjectRefs (Loaded.failed "cursor closed")] :=
  ⟨((C2_fatal_load_stops_run (scriptedEnv (Loaded.failed "no reachable servers")
        (Loaded.ok demoRefs)) demoSettings 0).1 "no reachable servers" rfl).1,
   ((C2_fatal_load_stops_run (scriptedEnv (Loaded.ok demoDistros)
        (Loaded.failed "cursor closed")) demoSettings 0).2 demoDistros "cursor closed"
        rfl rfl).1⟩

/-- Witness of C3: four refs, the second failing and the third missing;
the map holds the two resolved projects and nothing under beta. -/
theorem C3_unresolved_refs_skipped_witness :
    (RunAllMonitoring (scriptedEnv (Loaded.ok demoDistros) (Loaded.ok demoRefs))
      demoSettings 0).ret = none ∧
    ∃ m : ProjectMap,
      cleanupTasksProjects (RunAllMonitoring (scriptedEnv (Loaded.ok demoDistros)
        (Loaded.ok demoRefs)) demoSettings 0).trace = [m] ∧
      m.get "alpha-project" = some { Identifier := "alpha-project", Rest := "first" } ∧
      m.get "delta-project" = some { Identifier := "delta-project", Rest := "second" } ∧
      m.get "beta" = none ∧
      m.size = 2 :=
  have h := C3_unresolved_refs_skipped (scriptedEnv (Loaded.ok demoDistros)
    (Loaded.ok demoRefs)) demoSettings 0 demoDistros demoRefs rfl rfl (by decide)
  ⟨h.1, h.2.2.2.elim (fun m hm =>
    ⟨m, hm.1,
      (hm.2.2.1 _ _).mpr ⟨by decide, rfl⟩,
      (hm.2.2.1 _ _).mpr ⟨by decide, rfl⟩,
      hm.2.2.2.2 ({ Identifier := "beta", Rest := "" }, Loaded.failed "connection reset")
        (by decide) (by decide) (by decide),
      hm.2.2.2.1.trans (by decide)⟩)⟩

/-- Counterexample to C3 as stated: the ref alpha resolves to a project whose
identifier is beta and the ref beta fails to resolve.  Both loads succeed,
the one resolved project has an identifier distinct from all others, the run
returns nil, and the map handed to CleanupTasks has an entry under beta, the
identifier of the ref that failed. -/
theorem C3_counterexample :
    (crossedEnv.distroFind 0).1 = Loaded.ok demoDistros ∧
    (crossedEnv.FindAllProjectRefs (crossedEnv.distroFind 0).2).1 = Loaded.ok crossedRefs ∧
    ((resolvedAmong (resolutionOutcomes crossedEnv crossedRefs
        (stateAfterLoads crossedEnv 0))).map (fun p => p.Identifier)).Nodup ∧
    (RunAllMonitoring crossedEnv demoSettings 0).ret = none ∧
    resolutions (RunAllMonitoring crossedEnv demoSettings 0).trace
      = [({ Identifier := "alpha", Rest := "" },
          Loaded.ok (some { Identifier := "beta", Rest := "resolved from alpha" })),
         ({ Identifier := "beta", Rest := "" }, Loaded.failed "connection reset")] ∧
    isUnresolved ({ Identifier := "beta", Rest := "" }, Loaded.failed "connection reset")
      = true ∧
    ∃ m : ProjectMap,
      cleanupTasksProjects (RunAllMonitoring crossedEnv demoSettings 0).trace = [m] ∧
      m.get "beta" = some { Identifier := "beta", Rest := "resolved from alpha" } :=
  ⟨by decide, by decide, by decide, by decide, by decide, by decide,
    [("beta", { Identifier := "beta", Rest := "resolved from alpha" })],
    by decide, by decide⟩

/-- Witness of C4: every stage of the scripted run but one returns errors;
the ten calls of the run leave the call counter at ten. -/
theorem C4_stages_once_in_order_witness :
    stageCalls (RunAllMonitoring (scriptedEnv (Loaded.ok demoDistros)
        (Loaded.ok demoRefs)) demoSettings 0).trace
      = [Call.CleanupTasks taskMonitor
           [("delta-project", { Identifier := "delta-project", Rest := "second" }),
            ("alpha-project", { Identifier := "alpha-project", Rest := "first" })]
           ["task t1: reset failed"],
         Call.CleanupHosts hostMonitor demoDistros demoSettings
           ["host h1: terminate failed", "host h2: timeout"],
         Call.RunMonitoringChecks hostMonitor demoSettings [],
         Call.Notify notifier demoSettings ["smtp refused"]] ∧
    (RunAllMonitoring (scriptedEnv (Loaded.ok demoDistros) (Loaded.ok demoRefs))
      demoSettings 0).final = 10 :=
  have h := C4_stages_once_in_order (scriptedEnv (Loaded.ok demoDistros)
    (Loaded.ok demoRefs)) demoSettings 0 demoDistros demoRefs _ _ _ _ rfl rfl rfl rfl rfl rfl
  ⟨h.2.1.trans (by decide), h.2.2.trans (by decide)⟩

/-- Witness of C5: two unresolved refs and four returned errors give six
lines. -/
theorem C5_every_error_logged_once_witness :
    errorLog (RunAllMonitoring (scriptedEnv (Loaded.ok demoDistros)
      (Loaded.ok demoRefs)) demoSettings 0).trace
      = ["error finding project beta: connection reset",
         "no project entry found for ref gamma",
         "Error cleaning up tasks: task t1: reset failed",
         "Error cleaning up hosts: host h1: terminate failed",
         "Error cleaning up hosts: host h2: timeout",
         "Error sending notifications: smtp refused"] ∧
    (errorLog (RunAllMonitoring (scriptedEnv (Loaded.ok demoDistros)
      (Loaded.ok demoRefs)) demoSettings 0).trace).length = 6 :=
  have h := C5_every_error_logged_once (scriptedEnv (Loaded.ok demoDistros)
    (Loaded.ok demoRefs)) demoSettings 0 demoDistros demoRefs _ _ _ _ rfl rfl rfl rfl rfl rfl
  ⟨h.2.1.trans (by decide), h.2.2.2.trans (by decide)⟩

/-- Witness of C9: the engines of the scripted run. -/
theorem C9_default_engines_witness :
    ∃ (hostMonitor : HostMonitor) (projects : ProjectMap) (e1 e2 e3 e4 : List Err),
      hostMonitor.flaggingFuncs
        = [hostFlaggingFunc.flagDecommissionedHosts, hostFlaggingFunc.flagIdleHosts,
           hostFlaggingFunc.flagExcessHosts, hostFlaggingFunc.flagUnprovisionedHosts,
           hostFlaggingFunc.flagProvisioningFailedHosts,
           hostFlaggingFunc.flagExpiredHosts] ∧
      hostMonitor.monitoringFuncs = [hostMonitoringFunc.monitorReachability] ∧
      stageCalls (RunAllMonitoring (scriptedEnv (Loaded.ok demoDistros)
          (Loaded.ok demoRefs)) demoSettings 0).trace
        = [Call.CleanupTasks
             { flaggingFuncs := [taskFlaggingFunc.flagTimedOutHeartbeats] } projects e1,
           Call.CleanupHosts hostMonitor demoDistros demoSettings e2,
           Call.RunMonitoringChecks hostMonitor demoSettings e3,
           Call.Notify
             { notificationBuilders :=
                 [notificationBuilder.spawnHostExpirationWarnings,
                  notificationBuilder.slowProvisioningWarnings] } demoSettings e4] :=
  C9_default_engines (scriptedEnv (Loaded.ok demoDistros) (Loaded.ok demoRefs))
    demoSettings 0 demoDistros demoRefs rfl rfl

/-- Witness of C10: five refs, the first and the last resolving to projects
with the same identifier, which differs from the identifiers of the refs. -/
theorem C10_map_keyed_by_project_identifier_witness :
    ∃ m : ProjectMap,
      cleanupTasksProjects (RunAllMonitoring (scriptedEnv (Loaded.ok demoDistros)
        (Loaded.ok demoRefsShared)) demoSettings 0).trace = [m] ∧
      m.size ≤ demoRefsShared.length ∧
      m.get "alpha-project" = some { Identifier := "alpha-project", Rest := "third" } ∧
      m.get "alpha" = none :=
  have h := (C10_map_keyed_by_project_identifier (scriptedEnv (Loaded.ok demoDistros)
    (Loaded.ok demoRefsShared)) demoSettings 0 demoDistros demoRefsShared rfl rfl).2
  h.elim (fun m hm =>
    ⟨m, hm.1, hm.2.2.2.1,
      (hm.2.2.2.2 "alpha-project").trans (by decide),
      (hm.2.2.2.2 "alpha").trans (by decide)⟩)

/-- Witness of C6: the seven calls of the test on a log that already holds
an event of another host. -/
theorem C6_events_found_in_call_order_witness :
    (Find (HostEventsInOrder "host_id")
      (logAll "host_id" demoCalls
        [{ Timestamp := 9, ResourceId := "other_host",
           EventType := EventKind.EventHostCreated,
           Data := EventData.Host blankHostEventData }])).map (fun e => e.Timestamp)
      = [1, 2, 3, 4, 5, 6, 7] :=
  (C6_events_found_in_call_order "host_id" demoCalls
    [{ Timestamp := 9, ResourceId := "other_host",
       EventType := EventKind.EventHostCreated,
       Data := EventData.Host blankHostEventData }]
    (by decide) (by decide)).2.2.1

/-- Tied events on a concrete log: the fetch returns the two events at
reading three and then the two at reading five, each pair in the order of
insertion, and leaves out the event of the other host. -/
theorem Find_with_ties :
    (Find (HostEventsInOrder "h")
      [{ Timestamp := 5, ResourceId := "h", EventType := EventKind.EventHostCreated,
         Data := EventData.Other "a" },
       { Timestamp := 3, ResourceId := "h", EventType := EventKind.EventHostCreated,
         Data := EventData.Other "b" },
       { Timestamp := 5, ResourceId := "g", EventType := EventKind.EventHostCreated,
         Data := EventData.Other "c" },
       { Timestamp := 5, ResourceId := "h", EventType := EventKind.EventHostCreated,
         Data := EventData.Other "d" },
       { Timestamp := 3, ResourceId := "h", EventType := EventKind.EventHostCreated,
         Data := EventData.Other "e" }]).map (fun e => e.Data)
      = [EventData.Other "b", EventData.Other "e", EventData.Other "a",
         EventData.Other "d"] := by
  decide

end Witnesses

end Evergreen
